import Mathlib

/- Verification development for kernel_hmc/proposals/adaptive_metropolis.py.

Modelling choices:
* Vectors are `List α`, matrices are row-major `List (List α)`, over a
  `LinearOrderedField` (instantiated with `ℝ` in the theorems); numpy float
  arithmetic is read as exact real arithmetic and float tolerances are dropped.
* The source maintains a Cholesky factor `cov_L`/`L_C` and manipulates it only
  through two external capabilities that are not part of this repository:
  `cholupdate` (choldate package; contract: the new `RᵀR` equals the old `RᵀR`
  plus `v·vᵀ`) and `np.linalg.cholesky` (contract: it returns a lower `L` with
  `L·Lᵀ` equal to its input).  Every claim about these factors speaks about the
  product `L·Lᵀ`, so the embedding tracks exactly that represented product,
  following the source line by line.
* `np.sqrt`, `np.exp`, `np.log` are taken as function parameters and are
  instantiated with `Real.sqrt`, `Real.exp`, `Real.log` in the theorems.
* Python `assert` failures and raises are modelled as error values
  (`AMError`), named after the error taxonomy of the documentation. -/

namespace KernelHMC

variable {α : Type} [LinearOrderedField α]

/-- Error taxonomy: failed `assert lmbda >= 0 and lmbda <= 1` is
`invalidParameter`; failed length/shape asserts are `dimensionMismatch`;
the `ValueError` raised by `proposal` before data is seen is `notReady`;
`samplerFailure` stands for the crash of `sample_gaussian` when handed
`Sigma=None` (unreachable through the public interface). -/
inductive AMError
  | invalidParameter
  | dimensionMismatch
  | notReady
  | samplerFailure

/-- Componentwise vector sum. -/
def vadd (x y : List α) : List α := List.zipWith (fun a b => a + b) x y

/-- Componentwise vector difference (`u - mean`). -/
def vsub (x y : List α) : List α := List.zipWith (fun a b => a - b) x y

/-- Scalar times vector. -/
def smulV (c : α) (x : List α) : List α := x.map (fun a => c * a)

/-- Dot product. -/
def dotV (x y : List α) : α := (List.zipWith (fun a b => a * b) x y).sum

/-- Outer product `np.outer(x, y)`. -/
def outer (x y : List α) : List (List α) := x.map (fun a => y.map (fun b => a * b))

/-- Matrix sum. -/
def madd (A B : List (List α)) : List (List α) := List.zipWith vadd A B

/-- Scalar times matrix. -/
def smulM (c : α) (A : List (List α)) : List (List α) := A.map (smulV c)

/-- Identity matrix `np.eye(D)`. -/
def eye (D : ℕ) : List (List α) :=
  (List.range D).map (fun i => (List.range D).map (fun j => if i = j then (1 : α) else 0))

/-- The product `A · Bᵀ` (rows of the first against rows of the second). -/
def matMulT (A B : List (List α)) : List (List α) :=
  A.map (fun r => B.map (fun s => dotV r s))

/-- The vector that is `c` at position `d` and `0` elsewhere (the loop body of
lines 56-59 builds `e_d` with `np.sqrt(gamma2)` at position `d`). -/
def basisVec (D d : ℕ) (c : α) : List α :=
  (List.range D).map (fun i => if i = d then c else 0)

/-- Zero vector `np.zeros(D)`. -/
def zeros (D : ℕ) : List α := List.replicate D 0

/-- Initial mean used by both update strategies when the previous mean or
Cholesky factor is absent (lines 34 and 104): `mean = np.zeros(D)`. -/
def first_term_mean (D : ℕ) : List α := zeros D

/-- Initial Cholesky factor used by both update strategies when the previous
mean or Cholesky factor is absent (lines 35 and 105): `cov_L = np.eye(D) * nu2`. -/
def first_term_cov_L (D : ℕ) (nu2 : α) : List (List α) := smulM nu2 (eye D)

/-- Shared prologue of both update strategies (lines 32-41 and 102-111,
textually identical in the source): if `mean is None or cov_L is None` use the
zero mean and the scaled identity factor, else assert that `mean` has length
`D` and `cov_L` is `D × D`.  Result: the `(mean, L·Lᵀ)` pair the update body
works with (for the initial factor, `L·Lᵀ = (eye·nu2)·(eye·nu2)ᵀ`). -/
def first_term_init (D : ℕ) (nu2 : α) (mean? : Option (List α))
    (covC? : Option (List (List α))) : Except AMError (List α × List (List α)) :=
  match mean?, covC? with
  | some mean, some covC =>
    if mean.length == D && (covC.length == D && covC.all (fun r => r.length == D)) then
      .ok (mean, covC)
    else .error .dimensionMismatch
  | _, _ => .ok (first_term_mean D, matMulT (first_term_cov_L D nu2) (first_term_cov_L D nu2))

/-- Covariance-level embedding of `rank_one_update_mean_covariance_cholesky_lmbda`
(lines 15-83, efficient strategy, available when the choldate import succeeds).
The source updates an upper-triangular factor in place through `cholupdate`;
we track the represented product `RᵀR = L·Lᵀ` along the source: line 47 scales
the factor by `np.sqrt(1-lmbda)` (product scaled by that square), line 51 is a
rank-one update with `np.sqrt(lmbda)*np.sqrt(nu2)*(u-mean)`, and when `gamma2`
is given lines 55-64 loop one rank-one update with `np.sqrt(lmbda)*e_d` per
basis vector.  The transpose on line 79 leaves the product unchanged.  A
successful result is `(updated_mean, L·Lᵀ of the returned factor)`. -/
def rank_one_update_mean_covariance_cholesky_lmbda (sqrtf : α → α) (u : List α)
    (lmbda : α) (mean? : Option (List α)) (covC? : Option (List (List α)))
    (nu2 : α) (gamma2 : Option α) : Except AMError (List α × List (List α)) :=
  if 0 ≤ lmbda ∧ lmbda ≤ 1 then
    match first_term_init u.length nu2 mean? covC? with
    | .error e => .error e
    | .ok (mean, covC) =>
      let updated_mean := vadd (smulV (1 - lmbda) mean) (smulV lmbda u)
      let cov0 := smulM (sqrtf (1 - lmbda) * sqrtf (1 - lmbda)) covC
      let update_vec := smulV (sqrtf lmbda * sqrtf nu2) (vsub u mean)
      let cov1 := madd cov0 (outer update_vec update_vec)
      let cov2 :=
        match gamma2 with
        | none => cov1
        | some g =>
          (List.range u.length).foldl
            (fun A d =>
              let e_d := basisVec u.length d (sqrtf g)
              let v := smulV (sqrtf lmbda) e_d
              madd A (outer v v)) cov1
      .ok (updated_mean, cov2)
  else .error .invalidParameter

/-- Covariance-level embedding of `rank_update_mean_covariance_cholesky_lmbda_naive`
(lines 85-130, fallback strategy).  The source reconstructs the dense
covariance `np.dot(cov_L, cov_L.T)` (here: the tracked product itself), blends
it as `(1-lmbda)*update_cov + lmbda*nu2*np.outer(update_vec, update_vec)`,
optionally adds `np.eye(update_cov.shape[0])*gamma2`, and re-factorises with
`np.linalg.cholesky`; the returned factor `L` satisfies `L·Lᵀ = update_cov`,
which is what a successful result carries. -/
def rank_update_mean_covariance_cholesky_lmbda_naive (u : List α) (lmbda : α)
    (mean? : Option (List α)) (covC? : Option (List (List α)))
    (nu2 : α) (gamma2 : Option α) : Except AMError (List α × List (List α)) :=
  if 0 ≤ lmbda ∧ lmbda ≤ 1 then
    match first_term_init u.length nu2 mean? covC? with
    | .error e => .error e
    | .ok (mean, covC) =>
      let updated_mean := vadd (smulV (1 - lmbda) mean) (smulV lmbda u)
      let update_vec := vsub u mean
      let update_cov := madd (smulM (1 - lmbda) covC)
        (smulM (lmbda * nu2) (outer update_vec update_vec))
      let update_cov2 :=
        match gamma2 with
        | none => update_cov
        | some g => madd update_cov (smulM g (eye update_cov.length))
      .ok (updated_mean, update_cov2)
  else .error .invalidParameter


theorem zeros_length (D : ℕ) : (zeros (α := α) D).length = D := by
  simp [zeros]

theorem eye_length (D : ℕ) : (eye (α := α) D).length = D := by
  simp [eye]

theorem smulM_length (c : α) (A : List (List α)) : (smulM c A).length = A.length := by
  simp [smulM]

theorem matMulT_length (A B : List (List α)) : (matMulT A B).length = A.length := by
  simp [matMulT]

theorem matMulT_mem_length (A B : List (List α)) :
    ∀ r ∈ matMulT A B, r.length = B.length := by
  intro r hr
  simp only [matMulT, List.mem_map] at hr
  obtain ⟨a, _, rfl⟩ := hr
  simp

theorem first_term_init_absent (D : ℕ) (nu2 : α) (mean? : Option (List α))
    (covC? : Option (List (List α))) (h : mean? = none ∨ covC? = none) :
    first_term_init D nu2 mean? covC? =
      .ok (first_term_mean D, matMulT (first_term_cov_L D nu2) (first_term_cov_L D nu2)) := by
  rcases mean? with _ | m <;> rcases covC? with _ | C
  · rfl
  · rfl
  · rfl
  · simp at h

theorem first_term_init_of_init_values (D : ℕ) (nu2 : α) :
    first_term_init D nu2 (some (first_term_mean D))
      (some (matMulT (first_term_cov_L D nu2) (first_term_cov_L D nu2))) =
      .ok (first_term_mean D, matMulT (first_term_cov_L D nu2) (first_term_cov_L D nu2)) := by
  have hm : (first_term_mean (α := α) D).length = D := by
    simp [first_term_mean, zeros_length]
  have hc : (matMulT (first_term_cov_L D nu2) (first_term_cov_L (α := α) D nu2)).length = D := by
    simp [matMulT_length, first_term_cov_L, smulM_length, eye_length]
  have hr := matMulT_mem_length (first_term_cov_L D nu2) (first_term_cov_L (α := α) D nu2)
  simp only [first_term_init, hm, hc]
  have hall : (matMulT (first_term_cov_L D nu2) (first_term_cov_L (α := α) D nu2)).all
      (fun r => r.length == D) = true := by
    rw [List.all_eq_true]
    intro r hrm
    simpa [first_term_cov_L, smulM_length, eye_length] using hr r hrm
  simp [hall]

/-- C2 (amended): whenever the previous mean or Cholesky factor is absent,
both update strategies behave exactly as if they had been handed the shared
initial values mean = 0 and factor = eye·nu2 (covariance (eye·nu2)·(eye·nu2)ᵀ);
the initialisation rule is identical in the two strategies. -/
theorem update_strategies_shared_initialisation (flag : Bool) (sqrtf : ℝ → ℝ)
    (u : List ℝ) (lmbda nu2 : ℝ) (gamma2 : Option ℝ)
    (mean? : Option (List ℝ)) (covC? : Option (List (List ℝ)))
    (h : mean? = none ∨ covC? = none) :
    (if flag then
      rank_one_update_mean_covariance_cholesky_lmbda sqrtf u lmbda mean? covC? nu2 gamma2
     else
      rank_update_mean_covariance_cholesky_lmbda_naive u lmbda mean? covC? nu2 gamma2) =
    (if flag then
      rank_one_update_mean_covariance_cholesky_lmbda sqrtf u lmbda
        (some (first_term_mean u.length))
        (some (matMulT (first_term_cov_L u.length nu2) (first_term_cov_L u.length nu2)))
        nu2 gamma2
     else
      rank_update_mean_covariance_cholesky_lmbda_naive u lmbda
        (some (first_term_mean u.length))
        (some (matMulT (first_term_cov_L u.length nu2) (first_term_cov_L u.length nu2)))
        nu2 gamma2) := by
  have h2 : first_term_init u.length nu2 mean? covC? =
      first_term_init u.length nu2 (some (first_term_mean u.length))
        (some (matMulT (first_term_cov_L u.length nu2) (first_term_cov_L u.length nu2))) := by
    rw [first_term_init_absent u.length nu2 mean? covC? h,
      first_term_init_of_init_values]
  cases flag <;>
    simp only [if_true, if_false, Bool.false_eq_true,
      rank_one_update_mean_covariance_cholesky_lmbda,
      rank_update_mean_covariance_cholesky_lmbda_naive, h2]

/-- C2 witness: the shared-initialisation equation instantiated at the naive
strategy with u = [0], lmbda = 0, nu2 = 1, absent mean and factor. -/
theorem update_strategies_shared_initialisation_witness :
    (if false then
      rank_one_update_mean_covariance_cholesky_lmbda Real.sqrt [0] 0 none none 1 none
     else
      rank_update_mean_covariance_cholesky_lmbda_naive [(0 : ℝ)] 0 none none 1 none) =
    (if false then
      rank_one_update_mean_covariance_cholesky_lmbda Real.sqrt [0] 0
        (some (first_term_mean (List.length [(0 : ℝ)])))
        (some (matMulT (first_term_cov_L (List.length [(0 : ℝ)]) 1)
          (first_term_cov_L (List.length [(0 : ℝ)]) 1))) 1 none
     else
      rank_update_mean_covariance_cholesky_lmbda_naive [(0 : ℝ)] 0
        (some (first_term_mean (List.length [(0 : ℝ)])))
        (some (matMulT (first_term_cov_L (List.length [(0 : ℝ)]) 1)
          (first_term_cov_L (List.length [(0 : ℝ)]) 1))) 1 none) :=
  update_strategies_shared_initialisation false Real.sqrt [0] 0 1 none none none (Or.inl rfl)

/-- C2 counterexample: at nu2 = 4 and D = 1 the initial factor shared by both
update strategies is eye·nu2 = [[4]] and not sqrt(nu2)·eye = [[2]] as claimed. -/
theorem first_term_cov_L_is_not_sqrt_scaled :
    first_term_cov_L 1 (4 : ℝ) = [[4]] ∧ smulM (Real.sqrt 4) (eye 1) = [[2]] ∧
      ([[(4 : ℝ)]] : List (List ℝ)) ≠ [[2]] := by
  have h4 : Real.sqrt 4 = 2 := by
    rw [show (4 : ℝ) = 2 ^ 2 by norm_num]
    exact Real.sqrt_sq (by norm_num)
  refine ⟨?_, ?_, ?_⟩
  · simp [first_term_cov_L, smulM, smulV, eye, List.range_succ]
  · simp [smulM, smulV, eye, List.range_succ, h4]
  · intro h
    have := List.head_eq_of_cons_eq h
    have := List.head_eq_of_cons_eq this
    norm_num at this

/-- C1: at the input u = [0], lmbda = 0, mean = [0], factor = [[1]]
(covariance [[1]]), nu2 = 1, gamma2 = 1, the efficient strategy returns a
factor with product [[1]] (it adds lmbda·gamma2·I) while the fallback strategy
returns a factor with product [[2]] (its line `update_cov += eye*gamma2` adds
gamma2·I unweighted by lmbda): the two products differ by 1, far beyond the
stated 1e-6 tolerance, and only the efficient strategy realises the documented
rule newCov = (1-lmbda)·oldCov + lmbda·(nu2·(u-mean)(u-mean)ᵀ + gamma2·I). -/
theorem strategies_diverge_on_gamma2 :
    rank_one_update_mean_covariance_cholesky_lmbda Real.sqrt [0] 0
      (some [(0 : ℝ)]) (some [[1]]) 1 (some 1) = .ok ([0], [[1]]) ∧
    rank_update_mean_covariance_cholesky_lmbda_naive [(0 : ℝ)] 0
      (some [(0 : ℝ)]) (some [[1]]) 1 (some 1) = .ok ([0], [[2]]) ∧
    ([[(1 : ℝ)]] : List (List ℝ)) ≠ [[2]] := by
  refine ⟨?_, ?_, ?_⟩
  · simp [rank_one_update_mean_covariance_cholesky_lmbda, first_term_init,
      first_term_mean, first_term_cov_L, vadd, vsub, smulV, smulM, madd, outer,
      dotV, matMulT, basisVec, eye, zeros, List.range_succ]
  · simp [rank_update_mean_covariance_cholesky_lmbda_naive, first_term_init,
      first_term_mean, first_term_cov_L, vadd, vsub, smulV, smulM, madd, outer,
      dotV, matMulT, basisVec, eye, zeros, List.range_succ]
    norm_num
  · intro h
    have := List.head_eq_of_cons_eq h
    have := List.head_eq_of_cons_eq this
    norm_num at this


/-- State of the `AdaptiveMetropolis` class.  `target` stands for the target
density capability `self.target.log_pdf`; `covC` holds, at covariance level,
the product `L_C·L_Cᵀ` of the stored Cholesky factor `self.L_C` (absent while
`self.L_C is None`). -/
structure AdaptiveMetropolis (α : Type) where
  target : List α → α
  D : ℕ
  nu2 : α
  gamma2 : α
  schedule : Option (ℕ → α)
  acc_star : Option α
  t : ℕ
  mu : Option (List α)
  covC : Option (List (List α))

/-- Constructor sanity check `assert acc_star is None or acc_star > 0 and
acc_star < 1` (line 173). -/
def accStarOk (acc_star : Option α) : Bool :=
  match acc_star with
  | none => true
  | some a => decide (0 < a ∧ a < 1)

/-- A list equals its descending sort iff each element is at least the next;
this Boolean check captures `np.allclose(np.sort(lmbdas)[::-1], lmbdas)`
(line 177) with the float tolerance read as exact equality. -/
def sortedDescending : List α → Bool
  | [] => true
  | [_] => true
  | a :: b :: l => decide (b ≤ a) && sortedDescending (b :: l)

/-- Schedule probe of lines 174-177: evaluate `lmbdas = [schedule(t) for t in
np.arange(100)]`, assert `np.all(lmbdas >= 0)` and that the probed sequence is
non-increasing. -/
def scheduleOk (schedule : Option (ℕ → α)) : Bool :=
  match schedule with
  | none => true
  | some sch =>
    let lmbdas := (List.range 100).map sch
    lmbdas.all (fun l => decide (0 ≤ l)) && sortedDescending lmbdas

/-- `_initialise` (lines 181-197): reset `t` to 0; with a schedule, start from
the zero mean and the factor `L_C = np.eye(D) * np.sqrt(nu2)` (tracked as the
product `L_C·L_Cᵀ`); without a schedule leave mean and factor absent. -/
def am_initialise (sqrtf : α → α) (s : AdaptiveMetropolis α) : AdaptiveMetropolis α :=
  match s.schedule with
  | some _ =>
    { s with
        t := 0,
        mu := some (zeros s.D),
        covC := some (matMulT (smulM (sqrtf s.nu2) (eye s.D)) (smulM (sqrtf s.nu2) (eye s.D))) }
  | none => { s with t := 0, mu := none, covC := none }

/-- `__init__` (lines 145-179): store the parameters, run the sanity checks on
`acc_star` and on the probed schedule (an `AssertionError` is construction
failure, `none`), then `_initialise`.  The `assert_implements_log_pdf_and_grad`
check concerns only the shape of the external target object and is not
modelled. -/
def am_init (sqrtf : α → α) (target : List α → α) (D : ℕ) (nu2 gamma2 : α)
    (schedule : Option (ℕ → α)) (acc_star : Option α) :
    Option (AdaptiveMetropolis α) :=
  if accStarOk acc_star && scheduleOk schedule then
    some (am_initialise sqrtf
      { target := target, D := D, nu2 := nu2, gamma2 := gamma2,
        schedule := schedule, acc_star := acc_star, t := 0, mu := none, covC := none })
  else none

/-- `set_batch_covariance` (lines 199-201): `self.mu = np.mean(Z, axis=0)` and
`self.L_C = np.linalg.cholesky(self.nu2*np.cov(Z.T)+np.eye(Z.shape[1])*self.gamma2)`.
`Z` is an `n × d` batch (rows are observations); `np.cov(Z.T)` is the sample
covariance of the `d` columns with denominator `n-1`; at covariance level the
new `L_C·L_Cᵀ` is exactly the matrix handed to the factorisation. -/
def set_batch_covariance (s : AdaptiveMetropolis α) (Z : List (List α)) :
    AdaptiveMetropolis α :=
  let n : α := (Z.length : ℕ)
  let d := (Z.headD []).length
  let mu := (List.range d).map (fun j => (Z.map (fun r => r.getD j 0)).sum / n)
  let cov := (List.range d).map (fun j => (List.range d).map (fun k =>
    (Z.map (fun r => (r.getD j 0 - mu.getD j 0) * (r.getD k 0 - mu.getD k 0))).sum / (n - 1)))
  { s with
      mu := some mu,
      covC := some (madd (smulM s.nu2 cov) (smulM s.gamma2 (eye d))) }

/-- `_update_scaling` (lines 203-213), called only when both the schedule and
`acc_star` are set: `lmbda = self.schedule(self.t)`, `diff = accept_prob -
self.acc_star`, `self.nu2 = np.exp(np.log(self.nu2) + lmbda * diff)`. -/
def update_scaling (expf logf : α → α) (sch : ℕ → α) (astar : α)
    (s : AdaptiveMetropolis α) (accept_prob : α) : AdaptiveMetropolis α :=
  { s with nu2 := expf (logf s.nu2 + sch s.t * (accept_prob - astar)) }

/-- `update` (lines 215-252): increment `t`; with no schedule this is the only
effect.  Otherwise compute `lmbda = self.schedule(self.t)` and delegate to the
strategy selected by the import-time flag `cholupdate_available`, storing the
returned mean and factor; then, if `acc_star` is set, run `_update_scaling`.
The second component reports the error of a failed `assert` inside the
strategy, with the state exactly as mutated up to that point. -/
def am_update (cholupdate_available : Bool) (sqrtf expf logf : α → α)
    (s : AdaptiveMetropolis α) (z_new : List α) (previous_accept_prob : α) :
    AdaptiveMetropolis α × Option AMError :=
  let s1 := { s with t := s.t + 1 }
  match s1.schedule with
  | none => (s1, none)
  | some sch =>
    let lmbda := sch s1.t
    let res :=
      if cholupdate_available then
        rank_one_update_mean_covariance_cholesky_lmbda sqrtf z_new lmbda s1.mu s1.covC
          s1.nu2 (some s1.gamma2)
      else
        rank_update_mean_covariance_cholesky_lmbda_naive z_new lmbda s1.mu s1.covC
          s1.nu2 (some s1.gamma2)
    match res with
    | .error e => (s1, some e)
    | .ok (m, C) =>
      let s2 := { s1 with mu := some m, covC := some C }
      match s2.acc_star with
      | none => (s2, none)
      | some astar => (update_scaling expf logf sch astar s2 previous_accept_prob, none)

/-- `proposal` (lines 254-274): raise the not-ready `ValueError` when no
schedule is set and the mean or factor is absent; evaluate the current
log-density if it was not supplied; draw the candidate through the external
`sample_gaussian` capability (modelled from the spec: `sample1 current C`
stands for `sample_gaussian(N=1, mu=current, Sigma=L_C, is_cholesky=True)[0]`,
the draw `current + L_C·z`; `kernel_hmc.densities.gaussian` is not under
src/); return the candidate, `np.exp(np.min([0, proposal_log_pdf -
current_log_pdf]))` and the candidate log-density. -/
def am_proposal (expf : α → α) (sample1 : List α → List (List α) → List α)
    (s : AdaptiveMetropolis α) (current : List α) (current_log_pdf : Option α) :
    Except AMError (List α × α × α) :=
  if s.schedule.isNone && (s.mu.isNone || s.covC.isNone) then .error .notReady
  else
    let clp :=
      match current_log_pdf with
      | none => s.target current
      | some v => v
    match s.covC with
    | none => .error .samplerFailure
    | some C =>
      let prop := sample1 current C
      let prop_lp := s.target prop
      let acc_log_prob := min 0 (prop_lp - clp)
      .ok (prop, expf acc_log_prob, prop_lp)


/-- C7: with no schedule configured, an update call increments the iteration
counter t by exactly one and has no other effect: the whole state apart from t
(mean, Cholesky factor, nu2 included) is returned unchanged, with no error. -/
theorem am_update_no_schedule_only_counts (flag : Bool) (sqrtf expf logf : ℝ → ℝ)
    (s : AdaptiveMetropolis ℝ) (z : List ℝ) (p : ℝ) (h : s.schedule = none) :
    am_update flag sqrtf expf logf s z p = ({ s with t := s.t + 1 }, none) := by
  simp [am_update, h]

/-- C7 witness: a concrete schedule-free controller state. -/
theorem am_update_no_schedule_only_counts_witness :
    am_update true Real.sqrt Real.exp Real.log
      { target := fun _ => 0, D := 1, nu2 := 1, gamma2 := 0, schedule := none,
        acc_star := none, t := 0, mu := none, covC := none } [0] 0 =
    ({ target := fun _ => (0 : ℝ), D := 1, nu2 := 1, gamma2 := 0, schedule := none,
        acc_star := none, t := 0 + 1, mu := none, covC := none }, none) :=
  am_update_no_schedule_only_counts true Real.sqrt Real.exp Real.log _ [0] 0 rfl

/-- C8 (amended): an update call that fails (invalidParameter or
dimensionMismatch) leaves the mean, the Cholesky factor and nu2 unchanged,
because the strategy validates before returning anything; but `self.t += 1`
runs before that validation, so the failing call still increments the
iteration counter by one. -/
theorem am_update_error_frame (flag : Bool) (sqrtf expf logf : ℝ → ℝ)
    (s : AdaptiveMetropolis ℝ) (z : List ℝ) (p : ℝ) (e : AMError)
    (h : (am_update flag sqrtf expf logf s z p).2 = some e) :
    (am_update flag sqrtf expf logf s z p).1.mu = s.mu ∧
    (am_update flag sqrtf expf logf s z p).1.covC = s.covC ∧
    (am_update flag sqrtf expf logf s z p).1.nu2 = s.nu2 ∧
    (am_update flag sqrtf expf logf s z p).1.t = s.t + 1 := by
  rcases hs : s.schedule with _ | sch
  · simp [am_update, hs] at h
  · rcases hres : (if flag then
        rank_one_update_mean_covariance_cholesky_lmbda sqrtf z (sch (s.t + 1)) s.mu s.covC
          s.nu2 (some s.gamma2)
      else
        rank_update_mean_covariance_cholesky_lmbda_naive z (sch (s.t + 1)) s.mu s.covC
          s.nu2 (some s.gamma2)) with e' | mC
    · simp [am_update, hs, hres]
    · rcases hacc : s.acc_star with _ | astar <;>
        simp [am_update, hs, hres, hacc, update_scaling] at h

/-- C8 witness: the frame property applied to a concrete failing call (constant
schedule 3, so lmbda = 3 fails validation). -/
theorem am_update_error_frame_witness :
    (am_update true Real.sqrt Real.exp Real.log
      { target := fun _ => 0, D := 1, nu2 := 1, gamma2 := 0,
        schedule := some (fun _ => (3 : ℝ)), acc_star := none, t := 5,
        mu := some [0], covC := some [[1]] } [0] 0).1.mu = some [(0 : ℝ)] ∧
    (am_update true Real.sqrt Real.exp Real.log
      { target := fun _ => 0, D := 1, nu2 := 1, gamma2 := 0,
        schedule := some (fun _ => (3 : ℝ)), acc_star := none, t := 5,
        mu := some [0], covC := some [[1]] } [0] 0).1.covC = some [[(1 : ℝ)]] ∧
    (am_update true Real.sqrt Real.exp Real.log
      { target := fun _ => 0, D := 1, nu2 := 1, gamma2 := 0,
        schedule := some (fun _ => (3 : ℝ)), acc_star := none, t := 5,
        mu := some [0], covC := some [[1]] } [0] 0).1.nu2 = 1 ∧
    (am_update true Real.sqrt Real.exp Real.log
      { target := fun _ => 0, D := 1, nu2 := 1, gamma2 := 0,
        schedule := some (fun _ => (3 : ℝ)), acc_star := none, t := 5,
        mu := some [0], covC := some [[1]] } [0] 0).1.t = 5 + 1 :=
  am_update_error_frame true Real.sqrt Real.exp Real.log _ [0] 0 .invalidParameter
    (by norm_num [am_update, rank_one_update_mean_covariance_cholesky_lmbda])

/-- C8 counterexample: with the constant schedule 2 (which construction
accepts: all probes are non-negative and non-increasing), the first update
call fails with invalidParameter because lmbda = 2 lies outside [0,1], yet the
iteration counter has already been incremented from 0 to 1 - so, contrary to
the claim, a failing update call does change part of the existing state. -/
theorem am_update_failing_call_increments_t :
    (am_update true Real.sqrt Real.exp Real.log
      { target := fun _ => 0, D := 1, nu2 := 1, gamma2 := 0,
        schedule := some (fun _ => (2 : ℝ)), acc_star := none, t := 0,
        mu := some [0], covC := some [[1]] } [0] 0).2 = some .invalidParameter ∧
    (am_update true Real.sqrt Real.exp Real.log
      { target := fun _ => 0, D := 1, nu2 := 1, gamma2 := 0,
        schedule := some (fun _ => (2 : ℝ)), acc_star := none, t := 0,
        mu := some [0], covC := some [[1]] } [0] 0).1.t ≠ 0 := by
  constructor
  · norm_num [am_update, rank_one_update_mean_covariance_cholesky_lmbda]
  · norm_num [am_update, rank_one_update_mean_covariance_cholesky_lmbda]


theorem sortedDescending_iff :
    ∀ l : List α, sortedDescending l = true ↔ List.Chain' (fun a b => b ≤ a) l
  | [] => by simp [sortedDescending]
  | [a] => by simp [sortedDescending]
  | a :: b :: l => by
    simp only [sortedDescending, Bool.and_eq_true, decide_eq_true_eq,
      sortedDescending_iff (b :: l), List.chain'_cons]

theorem scheduleOk_some_iff (sch : ℕ → α) :
    scheduleOk (some sch) = true ↔
      ((∀ i < 100, 0 ≤ sch i) ∧ ∀ i, i + 1 < 100 → sch (i + 1) ≤ sch i) := by
  simp only [scheduleOk, Bool.and_eq_true, List.all_eq_true, List.mem_map,
    List.mem_range, decide_eq_true_eq, sortedDescending_iff, List.chain'_map]
  rw [show (100 : ℕ) = Nat.succ 99 from rfl, List.chain'_range_succ]
  constructor
  · rintro ⟨h1, h2⟩
    refine ⟨fun i hi => h1 (sch i) ⟨i, hi, rfl⟩, fun i hi => h2 i (by omega)⟩
  · rintro ⟨h1, h2⟩
    refine ⟨?_, fun m hm => h2 m (by omega)⟩
    rintro x ⟨i, hi, rfl⟩
    exact h1 i hi

theorem am_init_isSome (sqrtf : α → α) (target : List α → α) (D : ℕ)
    (nu2 gamma2 : α) (schedule : Option (ℕ → α)) (acc_star : Option α) :
    (am_init sqrtf target D nu2 gamma2 schedule acc_star).isSome =
      (accStarOk acc_star && scheduleOk schedule) := by
  unfold am_init
  split <;> simp_all

/-- C3 (amended): construction succeeds exactly when acc_star, if given, lies
strictly in (0,1) and the probed values lambda_0..lambda_99 of a given
schedule are all non-negative and non-increasing; nu2 and gamma2 are NOT
validated (they do not occur in the success condition at all). -/
theorem am_init_validation_iff (sqrtf : ℝ → ℝ) (target : List ℝ → ℝ) (D : ℕ)
    (nu2 gamma2 : ℝ) (schedule : Option (ℕ → ℝ)) (acc_star : Option ℝ) :
    (am_init sqrtf target D nu2 gamma2 schedule acc_star).isSome = true ↔
      ((∀ a ∈ acc_star, 0 < a ∧ a < 1) ∧
       ∀ sch ∈ schedule,
         ((∀ i < 100, 0 ≤ sch i) ∧ ∀ i, i + 1 < 100 → sch (i + 1) ≤ sch i)) := by
  rw [am_init_isSome, Bool.and_eq_true]
  rcases acc_star with _ | a <;> rcases schedule with _ | sch
  · simp [accStarOk, scheduleOk]
  · simp [accStarOk, scheduleOk_some_iff]
  · simp [accStarOk, scheduleOk]
  · simp [accStarOk, scheduleOk_some_iff]

/-- C3 counterexample: construction with nu2 = -1 and gamma2 = -5 succeeds, so,
contrary to the claim, the constructor does not validate nu2 > 0 or
gamma2 >= 0. -/
theorem am_init_accepts_invalid_nu2_gamma2 :
    (am_init Real.sqrt (fun _ => 0) 1 (-1 : ℝ) (-5) none none).isSome = true := by
  rfl


theorem vadd_smulV_getD (a b : α) (x : List α) :
    ∀ (y : List α) (i : ℕ), i < x.length → i < y.length →
      (vadd (smulV a x) (smulV b y)).getD i 0 = a * x.getD i 0 + b * y.getD i 0 := by
  induction x with
  | nil => intro y i hx hy; simp at hx
  | cons hd tl ih =>
    intro y i hx hy
    cases y with
    | nil => simp at hy
    | cons hd2 tl2 =>
      cases i with
      | zero => simp [vadd, smulV]
      | succ n =>
        simp only [vadd, smulV, List.map_cons, List.zipWith_cons_cons,
          List.getD_cons_succ]
        exact ih tl2 n (by simpa using hx) (by simpa using hy)

theorem update_strategy_ok_mean (flag : Bool) (sqrtf : α → α) (u : List α)
    (lmbda nu2 : α) (gamma2 : Option α) (mean? : Option (List α))
    (covC? : Option (List (List α))) (m : List α) (C : List (List α))
    (h : (if flag then
        rank_one_update_mean_covariance_cholesky_lmbda sqrtf u lmbda mean? covC? nu2 gamma2
      else
        rank_update_mean_covariance_cholesky_lmbda_naive u lmbda mean? covC? nu2 gamma2) =
      .ok (m, C)) :
    ∃ mean covC0, first_term_init u.length nu2 mean? covC? = .ok (mean, covC0) ∧
      m = vadd (smulV (1 - lmbda) mean) (smulV lmbda u) := by
  cases flag
  · simp only [if_false, Bool.false_eq_true,
      rank_update_mean_covariance_cholesky_lmbda_naive] at h
    split at h
    · split at h
      next e heq => simp at h
      next mean covC heq =>
        simp only [Except.ok.injEq, Prod.mk.injEq] at h
        exact ⟨mean, covC, heq, h.1.symm⟩
    · simp at h
  · simp only [if_true, rank_one_update_mean_covariance_cholesky_lmbda] at h
    split at h
    · split at h
      next e heq => simp at h
      next mean covC heq =>
        simp only [Except.ok.injEq, Prod.mk.injEq] at h
        exact ⟨mean, covC, heq, h.1.symm⟩
    · simp at h

/-- C4: whenever either update strategy returns successfully, the returned
mean equals (1-lmbda)·oldMean + lmbda·u componentwise, the old mean being the
zero vector when mean and factor were absent.  (The two inputs are quantified
jointly present or jointly absent, as in every state the controller produces;
when exactly one of them is absent the source re-initialises both.) -/
theorem updated_mean_componentwise (flag : Bool) (sqrtf : ℝ → ℝ) (u : List ℝ)
    (lmbda nu2 : ℝ) (gamma2 : Option ℝ) (mean? : Option (List ℝ))
    (covC? : Option (List (List ℝ))) (m : List ℝ) (C : List (List ℝ))
    (hpair : (mean? = none ∧ covC? = none) ∨ ∃ mm CC, mean? = some mm ∧ covC? = some CC)
    (h : (if flag then
        rank_one_update_mean_covariance_cholesky_lmbda sqrtf u lmbda mean? covC? nu2 gamma2
      else
        rank_update_mean_covariance_cholesky_lmbda_naive u lmbda mean? covC? nu2 gamma2) =
      .ok (m, C)) :
    ∀ i, i < u.length →
      m.getD i 0 =
        (1 - lmbda) * ((mean?.getD (zeros u.length)).getD i 0) + lmbda * u.getD i 0 := by
  obtain ⟨mean, covC0, hinit, hm⟩ :=
    update_strategy_ok_mean flag sqrtf u lmbda nu2 gamma2 mean? covC? m C h
  rcases hpair with ⟨h1, h2⟩ | ⟨mm, CC, h1, h2⟩
  · subst h1; subst h2
    simp only [first_term_init, first_term_mean, Except.ok.injEq, Prod.mk.injEq] at hinit
    intro i hi
    rw [hm, ← hinit.1]
    rw [vadd_smulV_getD (1 - lmbda) lmbda (zeros u.length) u i
      (by rw [zeros_length]; exact hi) hi]
    simp
  · subst h1; subst h2
    simp only [first_term_init] at hinit
    split at hinit
    next hguard =>
      simp only [Bool.and_eq_true, beq_iff_eq] at hguard
      simp only [Except.ok.injEq, Prod.mk.injEq] at hinit
      intro i hi
      rw [hm, ← hinit.1]
      rw [vadd_smulV_getD (1 - lmbda) lmbda mm u i (by rw [hguard.1]; exact hi) hi]
      simp
    next => simp at hinit

/-- C4 witness: the naive strategy at u = [2], lmbda = 1/2, mean = [0],
covariance [[1]], nu2 = 1 returns mean [1] = (1-1/2)·0 + (1/2)·2. -/
theorem updated_mean_componentwise_witness :
    [(1 : ℝ)].getD 0 0 =
      (1 - 1 / 2) * (((some [(0 : ℝ)]).getD (zeros 1)).getD 0 0) +
        1 / 2 * ([(2 : ℝ)].getD 0 0) :=
  updated_mean_componentwise false Real.sqrt [2] (1 / 2) 1 none (some [0]) (some [[1]])
    [1] [[5 / 2]] (Or.inr ⟨[0], [[1]], rfl, rfl⟩)
    (by norm_num [rank_update_mean_covariance_cholesky_lmbda_naive, first_term_init,
      vadd, vsub, smulV, smulM, madd, outer])
    0 (by norm_num)


/-- C5: with both a schedule and acc_star configured, a successful update call
replaces nu2 by exp(log(nu2) + lambda·(previousAcceptanceProbability -
acc_star)), where lambda is the schedule evaluated at the incremented counter
t+1; the new nu2 is strictly positive, and it is strictly smaller than the old
nu2 whenever the old nu2 is positive, the acceptance probability is below the
target and the schedule weight is positive. -/
theorem nu2_log_space_update (flag : Bool) (sqrtf : ℝ → ℝ)
    (s : AdaptiveMetropolis ℝ) (z : List ℝ) (p : ℝ) (sch : ℕ → ℝ) (astar : ℝ)
    (hsch : s.schedule = some sch) (hacc : s.acc_star = some astar)
    (hok : (am_update flag sqrtf Real.exp Real.log s z p).2 = none) :
    (am_update flag sqrtf Real.exp Real.log s z p).1.nu2 =
      Real.exp (Real.log s.nu2 + sch (s.t + 1) * (p - astar)) ∧
    0 < (am_update flag sqrtf Real.exp Real.log s z p).1.nu2 ∧
    (0 < s.nu2 → p < astar → 0 < sch (s.t + 1) →
      (am_update flag sqrtf Real.exp Real.log s z p).1.nu2 < s.nu2) := by
  rcases hres : (if flag then
      rank_one_update_mean_covariance_cholesky_lmbda sqrtf z (sch (s.t + 1)) s.mu s.covC
        s.nu2 (some s.gamma2)
    else
      rank_update_mean_covariance_cholesky_lmbda_naive z (sch (s.t + 1)) s.mu s.covC
        s.nu2 (some s.gamma2)) with e | mC
  · simp [am_update, hsch, hres] at hok
  · obtain ⟨m, C⟩ := mC
    have heq : (am_update flag sqrtf Real.exp Real.log s z p).1.nu2 =
        Real.exp (Real.log s.nu2 + sch (s.t + 1) * (p - astar)) := by
      simp [am_update, hsch, hres, hacc, update_scaling]
    refine ⟨heq, heq ▸ Real.exp_pos _, fun hnu hp hl => ?_⟩
    rw [heq, Real.exp_add, Real.exp_log hnu]
    exact mul_lt_of_lt_one_right hnu
      (Real.exp_lt_one_iff.mpr (mul_neg_of_pos_of_neg hl (sub_neg.mpr hp)))

/-- C5 witness: scenario D, acc_star = 0.234, schedule(t) = 1/(t+1), first
update with previous acceptance probability 0.1 strictly decreases nu2. -/
theorem nu2_log_space_update_witness :
    (am_update false Real.sqrt Real.exp Real.log
      { target := fun _ => 0, D := 1, nu2 := 1, gamma2 := 0,
        schedule := some (fun t => 1 / ((t : ℝ) + 1)), acc_star := some (117 / 500),
        t := 0, mu := some [0], covC := some [[1]] } [0] (1 / 10)).1.nu2 < 1 :=
  (nu2_log_space_update false Real.sqrt
    { target := fun _ => 0, D := 1, nu2 := 1, gamma2 := 0,
      schedule := some (fun t => 1 / ((t : ℝ) + 1)), acc_star := some (117 / 500),
      t := 0, mu := some [0], covC := some [[1]] } [0] (1 / 10)
    (fun t => 1 / ((t : ℝ) + 1)) (117 / 500) rfl rfl
    (by norm_num [am_update, rank_update_mean_covariance_cholesky_lmbda_naive,
      first_term_init, update_scaling])).2.2
    (by norm_num) (by norm_num) (by norm_num)

/-- C6: proposal fails with notReady exactly when no schedule is configured
and the mean or the factor is absent; in every other configuration reachable
through the interface (the hypothesis is the invariant that a configured
schedule comes with a present mean and factor, established at construction and
preserved by every operation) the call returns a candidate, an acceptance
probability and the candidate log-density. -/
theorem proposal_notReady_iff (expf : ℝ → ℝ)
    (sample1 : List ℝ → List (List ℝ) → List ℝ)
    (s : AdaptiveMetropolis ℝ) (current : List ℝ) (clp? : Option ℝ)
    (hinv : s.schedule.isSome = true → (s.mu.isSome = true ∧ s.covC.isSome = true)) :
    (am_proposal expf sample1 s current clp? = .error .notReady ↔
      (s.schedule = none ∧ (s.mu = none ∨ s.covC = none))) ∧
    ((s.schedule ≠ none ∨ (s.mu ≠ none ∧ s.covC ≠ none)) →
      ∃ out, am_proposal expf sample1 s current clp? = .ok out) := by
  rcases hs : s.schedule with _ | sch <;> rcases hm : s.mu with _ | mval <;>
    rcases hc : s.covC with _ | Cval <;>
    simp [am_proposal, hs, hm, hc] at hinv ⊢

/-- C6 witness: scenario B, no schedule and no batch covariance, proposal
fails with notReady. -/
theorem proposal_notReady_iff_witness :
    am_proposal Real.exp (fun c _ => c)
      { target := fun _ => 0, D := 1, nu2 := 1, gamma2 := 0, schedule := none,
        acc_star := none, t := 0, mu := none, covC := none } [0] (some 0) =
      .error .notReady :=
  (proposal_notReady_iff Real.exp (fun c _ => c) _ [0] (some 0) (by simp)).1.mpr
    ⟨rfl, Or.inl rfl⟩

/-- C9: a successful proposal call returns acceptance probability
exp(min(0, candidateLogDensity - currentLogDensity)), which lies in (0, 1];
the formula contains no Hastings correction term. -/
theorem acceptance_probability_exp_min (sample1 : List ℝ → List (List ℝ) → List ℝ)
    (s : AdaptiveMetropolis ℝ) (current : List ℝ) (clp : ℝ)
    (out : List ℝ × ℝ × ℝ)
    (h : am_proposal Real.exp sample1 s current (some clp) = .ok out) :
    out.2.1 = Real.exp (min 0 (out.2.2 - clp)) ∧ 0 < out.2.1 ∧ out.2.1 ≤ 1 := by
  unfold am_proposal at h
  split at h
  · simp at h
  · split at h
    next heq => simp at heq
    next v heq =>
      obtain rfl : clp = v := by simpa using heq
      split at h
      next => simp at h
      next Cm heq2 =>
        simp only [Except.ok.injEq] at h
        subst h
        refine ⟨rfl, Real.exp_pos _, ?_⟩
        calc Real.exp (min 0 (s.target (sample1 current Cm) - clp)) ≤ Real.exp 0 :=
              Real.exp_le_exp.mpr (min_le_left _ _)
          _ = 1 := Real.exp_zero

/-- C9 witness: a proposal on a flat target returns acceptance probability
exp(min(0, 0)) = 1. -/
theorem acceptance_probability_exp_min_witness :
    (1 : ℝ) = Real.exp (min 0 ((0 : ℝ) - 0)) ∧ (0 : ℝ) < 1 ∧ (1 : ℝ) ≤ 1 :=
  acceptance_probability_exp_min (fun c _ => c)
    { target := fun _ => 0, D := 1, nu2 := 1, gamma2 := 0, schedule := none,
      acc_star := none, t := 0, mu := some [0], covC := some [[1]] } [0] 0
    ([0], 1, 0) (by simp [am_proposal])


theorem smulV_length (c : α) (x : List α) : (smulV c x).length = x.length := by
  simp [smulV]

theorem vadd_length (x y : List α) : (vadd x y).length = min x.length y.length := by
  simp [vadd]

theorem exists_of_mem_zipWith {β γ δ : Type} {f : β → γ → δ} :
    ∀ {l1 : List β} {l2 : List γ} {x : δ}, x ∈ List.zipWith f l1 l2 →
      ∃ a b, a ∈ l1 ∧ b ∈ l2 ∧ x = f a b := by
  intro l1
  induction l1 with
  | nil => intro l2 x hx; simp at hx
  | cons hd tl ih =>
    intro l2 x hx
    cases l2 with
    | nil => simp at hx
    | cons hd2 tl2 =>
      simp only [List.zipWith_cons_cons, List.mem_cons] at hx
      rcases hx with rfl | hx
      · exact ⟨hd, hd2, by simp, by simp, rfl⟩
      · obtain ⟨a, b, ha, hb, rfl⟩ := ih hx
        exact ⟨a, b, by simp [ha], by simp [hb], rfl⟩

/-- C10: set_batch_covariance validates nothing against the configured D: for
any non-empty rectangular batch of d-dimensional samples (d arbitrary,
including d different from s.D) the call succeeds with no error and silently
replaces the mean and the factor by d-dimensional values, all other fields
(D included) unchanged. -/
theorem set_batch_covariance_no_dimension_check (s : AdaptiveMetropolis ℝ)
    (Z : List (List ℝ)) (d : ℕ) (hne : Z ≠ []) (hrect : ∀ r ∈ Z, r.length = d) :
    ∃ m C, set_batch_covariance s Z = { s with mu := some m, covC := some C } ∧
      m.length = d ∧ C.length = d ∧ ∀ r ∈ C, r.length = d := by
  have hd : (Z.head?.getD []).length = d := by
    cases Z with
    | nil => exact absurd rfl hne
    | cons z zs => exact hrect z (by simp)
  refine ⟨_, _, rfl, ?_, ?_, ?_⟩
  · simp [hd]
  · simp [madd, smulM, eye, hd]
  · intro r hr
    simp only [madd] at hr
    obtain ⟨a, b, ha, hb, rfl⟩ := exists_of_mem_zipWith hr
    simp only [smulM, List.mem_map] at ha hb
    obtain ⟨arow, harow, rfl⟩ := ha
    obtain ⟨brow, hbrow, rfl⟩ := hb
    have la : arow.length = d := by
      simp only [List.mem_map, List.mem_range] at harow
      obtain ⟨j, hj, rfl⟩ := harow
      simp [hd]
    have lb : brow.length = d := by
      simp only [eye, List.mem_map, List.mem_range] at hbrow
      obtain ⟨j, hj, rfl⟩ := hbrow
      simp [hd]
    simp [vadd_length, smulV_length, la, lb]

/-- C10 witness: a controller configured with D = 3 accepts a batch of
2-dimensional samples and silently installs 2-dimensional state. -/
theorem set_batch_covariance_no_dimension_check_witness :
    ∃ m C, set_batch_covariance
        { target := fun _ => (0 : ℝ), D := 3, nu2 := 1, gamma2 := 0, schedule := none,
          acc_star := none, t := 0, mu := none, covC := none } [[1, 2], [3, 4]] =
      { target := fun _ => (0 : ℝ), D := 3, nu2 := 1, gamma2 := 0, schedule := none,
        acc_star := none, t := 0, mu := some m, covC := some C } ∧
      m.length = 2 ∧ C.length = 2 ∧ ∀ r ∈ C, r.length = 2 :=
  set_batch_covariance_no_dimension_check _ [[1, 2], [3, 4]] 2 (by simp) (by simp)


/-- The invariant assumed in the not-ready characterisation holds for every
freshly constructed controller: a configured schedule comes with a present
mean and factor. -/
theorem am_init_invariant (sqrtf : α → α) (target : List α → α) (D : ℕ)
    (nu2 gamma2 : α) (schedule : Option (ℕ → α)) (acc_star : Option α)
    (s : AdaptiveMetropolis α)
    (h : am_init sqrtf target D nu2 gamma2 schedule acc_star = some s) :
    s.schedule.isSome = true → (s.mu.isSome = true ∧ s.covC.isSome = true) := by
  unfold am_init at h
  split at h
  · simp only [Option.some.injEq] at h
    subst h
    unfold am_initialise
    rcases schedule with _ | sch <;> simp
  · simp at h

/-- The invariant is preserved by update (the only fields it ever writes are
the counter and, on success, a present mean and factor). -/
theorem am_update_invariant (flag : Bool) (sqrtf expf logf : α → α)
    (s : AdaptiveMetropolis α) (z : List α) (p : α)
    (hinv : s.schedule.isSome = true → (s.mu.isSome = true ∧ s.covC.isSome = true)) :
    (am_update flag sqrtf expf logf s z p).1.schedule.isSome = true →
      ((am_update flag sqrtf expf logf s z p).1.mu.isSome = true ∧
       (am_update flag sqrtf expf logf s z p).1.covC.isSome = true) := by
  rcases hs : s.schedule with _ | sch
  · simp [am_update, hs]
  · rcases hres : (if flag then
        rank_one_update_mean_covariance_cholesky_lmbda sqrtf z (sch (s.t + 1)) s.mu s.covC
          s.nu2 (some s.gamma2)
      else
        rank_update_mean_covariance_cholesky_lmbda_naive z (sch (s.t + 1)) s.mu s.covC
          s.nu2 (some s.gamma2)) with e | mC
    · simpa [am_update, hs, hres] using hinv (by simp [hs])
    · obtain ⟨m, C⟩ := mC
      rcases hacc : s.acc_star with _ | astar <;>
        simp [am_update, hs, hres, hacc, update_scaling]

/-- The invariant is trivially (re-)established by set_batch_covariance, which
installs a present mean and factor. -/
theorem set_batch_covariance_invariant (s : AdaptiveMetropolis α)
    (Z : List (List α)) :
    (set_batch_covariance s Z).mu.isSome = true ∧
      (set_batch_covariance s Z).covC.isSome = true := by
  simp [set_batch_covariance]

end KernelHMC
